import Mathlib

/-!
Verification development for the Retrieval-Augmented-Generation repository.

The repository's visible sources contain the React web client
(`web/src/components/Chat.tsx`, `web/src/api/client.ts`,
`web/src/components/IngestionPanel.tsx`, `web/src/components/Sidebar.tsx`,
`web/src/components/KnowledgeReferencesPanel.tsx`) together with start/stop
scripts and documentation.  The backend (chunker, ingestion orchestrator,
vector index adapter, retrieval-augmented answerer, session store adapter and
reference registry) is not part of the visible sources; those components are
modelled from the specification, as marked on each definition.
-/

namespace RagSpec

/-! ## Chunker (modelled from the spec, §4.1) -/

/-- Modelled from the spec: §4.1 — invalid chunk parameters fail with
`ConfigError`.  The backend chunker implementation is missing from the visible
sources. -/
inductive ChunkError where
  | configError
deriving DecidableEq

/-- Modelled from the spec: §4.1 — helper splitting a character list into
maximal runs of non-whitespace characters, accumulating the current word in
reverse. -/
def wordsAux : List Char → List Char → List (List Char)
  | [], acc => if acc.isEmpty then [] else [acc.reverse]
  | c :: cs, acc =>
    if c.isWhitespace then
      if acc.isEmpty then wordsAux cs [] else acc.reverse :: wordsAux cs []
    else wordsAux cs (c :: acc)

/-- Modelled from the spec: §4.1 — "tokenize `text` into words on whitespace".
The backend chunker implementation is missing from the visible sources. -/
def wordsOf (text : String) : List String :=
  (wordsAux text.data []).map (fun cs => String.mk cs)

/-- Fuel-indexed worker for `windowsGo`; the fuel is an upper bound on the
number of remaining words, so it never runs out on the intended calls. -/
def windowsGoF (C t : Nat) : Nat → List String → List (List String)
  | _, [] => []
  | 0, _ :: _ => []
  | fuel + 1, w :: rest =>
    if rest.length + 1 ≤ C then [w :: rest]
    else (w :: rest).take C :: windowsGoF C t fuel (rest.drop t)

/-- Modelled from the spec: §4.1 — "produce windows of length `chunk_size`
words with stride `chunk_size − chunk_overlap`, starting at offset 0, until
the remaining tail is exhausted; the final window may be shorter than
`chunk_size` but is still emitted (unless it is empty)".  The stride is
`t + 1`; the backend chunker implementation is missing from the visible
sources. -/
def windowsGo (C t : Nat) (l : List String) : List (List String) :=
  windowsGoF C t l.length l

theorem windowsGoF_fuel (C t : Nat) :
    ∀ f₁ f₂ (l : List String), l.length ≤ f₁ → l.length ≤ f₂ →
      windowsGoF C t f₁ l = windowsGoF C t f₂ l := by
  intro f₁
  induction f₁ with
  | zero =>
    intro f₂ l h1 _
    have : l = [] := List.eq_nil_of_length_eq_zero (Nat.le_zero.mp h1)
    subst this
    cases f₂ <;> rfl
  | succ f ih =>
    intro f₂ l h1 h2
    match l, f₂ with
    | [], g => cases g <;> rfl
    | w :: rest, 0 => simp at h2
    | w :: rest, g + 1 =>
      show windowsGoF C t (f + 1) (w :: rest) = windowsGoF C t (g + 1) (w :: rest)
      rw [windowsGoF, windowsGoF]
      by_cases hc : rest.length + 1 ≤ C
      · rw [if_pos hc, if_pos hc]
      · rw [if_neg hc, if_neg hc,
          ih g (rest.drop t)
            (by simp only [List.length_cons] at h1; simp only [List.length_drop]; omega)
            (by simp only [List.length_cons] at h2; simp only [List.length_drop]; omega)]

theorem windowsGo_cons (C t : Nat) (w : String) (rest : List String) :
    windowsGo C t (w :: rest) =
      if rest.length + 1 ≤ C then [w :: rest]
      else (w :: rest).take C :: windowsGo C t (rest.drop t) := by
  show windowsGoF C t (rest.length + 1) (w :: rest) = _
  rw [windowsGoF]
  by_cases hc : rest.length + 1 ≤ C
  · rw [if_pos hc, if_pos hc]
  · rw [if_neg hc, if_neg hc,
      windowsGoF_fuel C t rest.length (rest.drop t).length (rest.drop t)
        (by simp only [List.length_drop]; omega) (by simp only [List.length_drop]; omega)]
    rfl

/-- Modelled from the spec: §4.1 Chunker contract —
`chunk(text, chunk_size, chunk_overlap) → ordered sequence of chunk texts`,
preconditions `chunk_overlap < chunk_size`, both positive, otherwise
`ConfigError`.  The backend chunker implementation is missing from the visible
sources. -/
def chunk (text : String) (chunk_size chunk_overlap : Nat) :
    Except ChunkError (List String) :=
  if 0 < chunk_size ∧ 0 < chunk_overlap ∧ chunk_overlap < chunk_size then
    .ok ((windowsGo chunk_size (chunk_size - chunk_overlap - 1)
      (wordsOf text)).map (fun ws => " ".intercalate ws))
  else
    .error .configError

theorem windowsGo_length_of_le (C t : Nat) (l : List String) (h0 : l ≠ [])
    (hle : l.length ≤ C) : (windowsGo C t l).length = 1 := by
  match l with
  | [] => exact absurd rfl h0
  | w :: rest =>
    rw [windowsGo_cons, if_pos (by simpa using hle)]
    rfl

theorem windowsGo_length_of_gt (C O : Nat) (hO : 0 < O) (hOC : O < C) :
    ∀ n (l : List String), l.length = n → C < l.length →
      (windowsGo C (C - O - 1) l).length =
        (l.length - O + (C - O) - 1) / (C - O) := by
  intro n
  induction n using Nat.strong_induction_on with
  | _ n ih =>
    intro l hl hC
    match l with
    | [] => simp at hC
    | w :: rest =>
      have hlen : (w :: rest).length = rest.length + 1 := by simp
      have hnot : ¬ (rest.length + 1 ≤ C) := by
        simp only [List.length_cons] at hC; omega
      rw [windowsGo_cons, if_neg hnot]
      simp only [List.length_cons]
      have hdrop : (rest.drop (C - O - 1)).length = rest.length - (C - O - 1) := by
        simp
      by_cases hrem : C < (rest.drop (C - O - 1)).length
      · -- the tail after one stride is still longer than a window
        have hrec := ih (rest.drop (C - O - 1)).length
          (by rw [hdrop]; simp only [List.length_cons] at hl hC ⊢; omega)
          (rest.drop (C - O - 1)) rfl hrem
        rw [hrec, hdrop]
        have harith : rest.length + 1 - O + (C - O) - 1 =
            (rest.length - (C - O - 1) - O + (C - O) - 1) + (C - O) := by
          rw [hdrop] at hrem
          omega
        rw [harith, Nat.add_div_right _ (by omega : 0 < C - O)]
      · -- the tail after one stride fits in a single final window
        have hpos : rest.drop (C - O - 1) ≠ [] := by
          intro hnil
          rw [hnil] at hdrop
          simp only [List.length_nil] at hdrop
          simp only [List.length_cons] at hC
          omega
        rw [windowsGo_length_of_le C (C - O - 1) _ hpos (by omega)]
        have h2 : 2 * (C - O) ≤ rest.length + 1 - O + (C - O) - 1 := by
          simp only [List.length_cons] at hC
          omega
        have h3 : rest.length + 1 - O + (C - O) - 1 < (2 + 1) * (C - O) := by
          rw [hdrop] at hrem
          simp only [List.length_cons] at hC
          omega
        rw [Nat.div_eq_of_lt_le h2 h3]

/-- C1: for every input text and positive integer parameters `chunk_size = C`
and `chunk_overlap = O` with `O < C`, `chunk(text, C, O)` produces exactly one
chunk when the whitespace-word count `L` satisfies `0 < L ≤ C`, exactly
`⌈(L − O) / (C − O)⌉` chunks when `L > C` (written with natural division as
`(L − O + (C − O) − 1) / (C − O)`), and zero chunks when `L = 0`. -/
theorem chunk_count_law (text : String) (C O : Nat)
    (hC : 0 < C) (hO : 0 < O) (hOC : O < C) :
    ∃ chunks, chunk text C O = .ok chunks ∧
      ((wordsOf text).length = 0 → chunks.length = 0) ∧
      (0 < (wordsOf text).length → (wordsOf text).length ≤ C →
        chunks.length = 1) ∧
      (C < (wordsOf text).length →
        chunks.length = ((wordsOf text).length - O + (C - O) - 1) / (C - O)) := by
  refine ⟨(windowsGo C (C - O - 1) (wordsOf text)).map (fun ws => " ".intercalate ws),
    ?_, ?_, ?_, ?_⟩
  · rw [chunk, if_pos ⟨hC, hO, hOC⟩]
  · intro hzero
    have : wordsOf text = [] := List.length_eq_zero.mp hzero
    rw [this]
    rfl
  · intro hpos hle
    rw [List.length_map,
      windowsGo_length_of_le C (C - O - 1) _ (by
        intro hnil
        rw [hnil] at hpos
        simp at hpos) hle]
  · intro hgt
    rw [List.length_map,
      windowsGo_length_of_gt C O hO hOC (wordsOf text).length _ rfl hgt]

/-- Concrete instance of the chunk count law: five words, `chunk_size = 3`,
`chunk_overlap = 1` give `⌈(5 − 1) / 2⌉ = 2` chunks. -/
theorem chunk_count_law_witness :
    ∃ chunks, chunk "alpha beta gamma delta epsilon" 3 1 = .ok chunks ∧
      ((wordsOf "alpha beta gamma delta epsilon").length = 0 → chunks.length = 0) ∧
      (0 < (wordsOf "alpha beta gamma delta epsilon").length →
        (wordsOf "alpha beta gamma delta epsilon").length ≤ 3 →
        chunks.length = 1) ∧
      (3 < (wordsOf "alpha beta gamma delta epsilon").length →
        chunks.length =
          ((wordsOf "alpha beta gamma delta epsilon").length - 1 + (3 - 1) - 1) / (3 - 1)) :=
  chunk_count_law "alpha beta gamma delta epsilon" 3 1
    (by decide) (by decide) (by decide)

theorem chunk_concrete_eval :
    chunk "alpha beta gamma delta epsilon" 3 1 =
      .ok ["alpha beta gamma", "gamma delta epsilon"] := rfl

/-! ## Vector Index Adapter (modelled from the spec, §4.3)

The vector similarity engine itself is an external collaborator (§1); its
similarity function is modelled here as the negated squared Euclidean distance
over integer vector components, whose maximum value `0` is attained exactly on
an exact match. -/

/-- Vectors of the model: integer components. -/
abbrev Vec := List Int

/-- Modelled from the spec: §3 — the composite key `(page_id, chunk_index)`. -/
structure PointKey where
  page_id : Nat
  chunk_index : Nat
deriving DecidableEq

/-- Modelled from the spec: §3 — the derived chunk payload
`{title, url, topic, page_id, chunk_index}`. -/
structure Payload where
  title : String
  url : String
  topic : Option String
  page_id : Nat
  chunk_index : Nat
deriving DecidableEq

/-- Modelled from the spec: §4.3 — a `(vector, payload)` point stored under a
composite key. -/
structure Point where
  key : PointKey
  vector : Vec
  payload : Payload
deriving DecidableEq

/-- The vector index contents: a list of points, most recently upserted
first. -/
abbrev Index := List Point

/-- Modelled from the spec: §4.3 — `upsert` is idempotent, "upserting an
existing key overwrites rather than duplicates". -/
def upsert (idx : Index) (p : Point) : Index :=
  p :: idx.filter (fun q => decide (q.key ≠ p.key))

/-- Upsert a batch of points in order. -/
def upsertAll (idx : Index) (ps : List Point) : Index :=
  ps.foldl upsert idx

/-- Modelled from the spec: §4.3 — `delete_by_page(page_id)` removes all
points for that page; idempotent. -/
def delete_by_page (idx : Index) (pid : Nat) : Index :=
  idx.filter (fun q => decide (q.key.page_id ≠ pid))

/-- Modelled from the spec: §4.3 — one `list_pages()` aggregate row. -/
structure PageSummary where
  page_id : Nat
  title : String
  url : String
  topic : Option String
  chunk_count : Nat
deriving DecidableEq

/-- The distinct page ids present in the index, in first-seen order. -/
def pageIds (idx : Index) : List Nat :=
  (idx.map (fun p => p.key.page_id)).dedup

/-- Modelled from the spec: §4.3 — `list_pages()` aggregated from payloads,
one entry per distinct `page_id`. -/
def list_pages (idx : Index) : List PageSummary :=
  (pageIds idx).map (fun pid =>
    let pts := idx.filter (fun q => decide (q.key.page_id = pid))
    { page_id := pid
      title := ((pts.head?).map (fun p => p.payload.title)).getD ""
      url := ((pts.head?).map (fun p => p.payload.url)).getD ""
      topic := (pts.head?).bind (fun p => p.payload.topic)
      chunk_count := pts.length })

/-- Squared Euclidean distance between two vectors (componentwise on the
common prefix). -/
def sqDist (q v : Vec) : Int :=
  (List.zipWith (fun a b => (a - b) * (a - b)) q v).sum

/-- Similarity score of the model: negated squared distance, so the maximum
value is `0`, attained exactly on an exact match. -/
def sim (q v : Vec) : Int := - sqDist q v

theorem sqDist_nonneg (q v : Vec) : 0 ≤ sqDist q v := by
  induction q generalizing v with
  | nil => simp [sqDist]
  | cons a q ih =>
    cases v with
    | nil => simp [sqDist]
    | cons b v =>
      have h1 : 0 ≤ (a - b) * (a - b) := mul_self_nonneg _
      have h2 := ih v
      simp only [sqDist, List.zipWith_cons_cons, List.sum_cons] at h2 ⊢
      omega

theorem sqDist_self (v : Vec) : sqDist v v = 0 := by
  induction v with
  | nil => simp [sqDist]
  | cons a v ih =>
    simp only [sqDist, List.zipWith_cons_cons, List.sum_cons] at ih ⊢
    omega

theorem sim_le_zero (q v : Vec) : sim q v ≤ 0 := by
  have := sqDist_nonneg q v
  simp only [sim]
  omega

theorem sim_self (v : Vec) : sim v v = 0 := by
  simp [sim, sqDist_self]

/-- One result row of `search`. -/
structure SearchEntry where
  key : PointKey
  payload : Payload
  score : Int
deriving DecidableEq

/-- Modelled from the spec: §4.3 — the result order of `search`: descending
similarity, ties broken by ascending `chunk_index` then `page_id`. -/
def searchRel (e₁ e₂ : SearchEntry) : Prop :=
  e₂.score < e₁.score ∨ (e₁.score = e₂.score ∧
    (e₁.key.chunk_index < e₂.key.chunk_index ∨
      (e₁.key.chunk_index = e₂.key.chunk_index ∧
        e₁.key.page_id ≤ e₂.key.page_id)))

instance : DecidableRel searchRel := fun e₁ e₂ => by
  unfold searchRel
  infer_instance

instance : IsTotal SearchEntry searchRel :=
  ⟨by intro a b; unfold searchRel; omega⟩

instance : IsTrans SearchEntry searchRel :=
  ⟨by intro a b c; unfold searchRel; omega⟩

/-- Modelled from the spec: §4.3 —
`search(vector, top_k, score_threshold) → ordered sequence of
{key, payload, score}` sorted by descending similarity, entries below
`score_threshold` excluded, ties broken by ascending `chunk_index` then
`page_id`. -/
def search (idx : Index) (vector : Vec) (top_k : Nat) (score_threshold : Int) :
    List SearchEntry :=
  (List.insertionSort searchRel
    ((idx.map (fun p => ⟨p.key, p.payload, sim vector p.vector⟩)).filter
      (fun e => decide (score_threshold ≤ e.score)))).take top_k

theorem mem_search {idx : Index} {v : Vec} {k : Nat} {thr : Int}
    {e : SearchEntry} (he : e ∈ search idx v k thr) :
    ∃ p ∈ idx, e = ⟨p.key, p.payload, sim v p.vector⟩ ∧ thr ≤ e.score := by
  have h1 := List.mem_of_mem_take he
  rw [List.mem_insertionSort] at h1
  have h2 := List.of_mem_filter h1
  have h3 := List.mem_of_mem_filter h1
  rw [List.mem_map] at h3
  obtain ⟨p, hp, hpe⟩ := h3
  exact ⟨p, hp, hpe.symm, of_decide_eq_true h2⟩

/-- C5: every entry returned by `search(vector, top_k, score_threshold)` has
`score ≥ score_threshold`; the result is sorted by descending similarity with
ties broken by ascending `chunk_index` then `page_id`; and when some indexed
chunk vector equals the query vector (with a threshold not above the maximal
score and a positive `top_k`), that exact self-match scores the maximum value
`0` — the ceiling of every score — and the first-ranked entry attains it. -/
theorem search_contract (idx : Index) (v : Vec) (k : Nat) (thr : Int) :
    (∀ e ∈ search idx v k thr, thr ≤ e.score) ∧
    List.Sorted searchRel (search idx v k thr) ∧
    (∀ e ∈ search idx v k thr, e.score ≤ 0) ∧
    (∀ p ∈ idx, p.vector = v → sim v p.vector = 0) ∧
    ((∃ p ∈ idx, p.vector = v) → thr ≤ 0 → 0 < k →
      ∃ e, (search idx v k thr).head? = some e ∧ e.score = 0) := by
  refine ⟨?_, ?_, ?_, ?_, ?_⟩
  · intro e he
    exact (mem_search he).choose_spec.2.2
  · exact (List.sorted_insertionSort searchRel _).sublist (List.take_sublist _ _)
  · intro e he
    obtain ⟨p, _, hpe, _⟩ := mem_search he
    rw [hpe]
    exact sim_le_zero v p.vector
  · intro p _ hpv
    rw [hpv]
    exact sim_self v
  · rintro ⟨p, hp, hpv⟩ hthr hk
    have hself : (⟨p.key, p.payload, sim v p.vector⟩ : SearchEntry) ∈
        (idx.map (fun q => ⟨q.key, q.payload, sim v q.vector⟩)).filter
          (fun e => decide (thr ≤ e.score)) := by
      rw [List.mem_filter]
      refine ⟨List.mem_map.mpr ⟨p, hp, rfl⟩, decide_eq_true ?_⟩
      rw [hpv, sim_self]
      exact hthr
    rw [← List.mem_insertionSort searchRel] at hself
    match hsort : List.insertionSort searchRel
        ((idx.map (fun q => ⟨q.key, q.payload, sim v q.vector⟩)).filter
          (fun e => decide (thr ≤ e.score))) with
    | [] =>
      rw [hsort] at hself
      simp at hself
    | e₀ :: rest =>
      have hsorted : List.Sorted searchRel (e₀ :: rest) := by
        rw [← hsort]
        exact List.sorted_insertionSort searchRel _
      have hhead : (search idx v k thr).head? = some e₀ := by
        unfold search
        rw [hsort]
        match k, hk with
        | k' + 1, _ => rfl
      refine ⟨e₀, hhead, ?_⟩
      have hle0 : e₀.score ≤ 0 := by
        have he₀mem : e₀ ∈ search idx v k thr := by
          unfold search
          rw [hsort]
          match k, hk with
          | k' + 1, _ => exact List.mem_cons_self _ _
        obtain ⟨q, _, hqe, _⟩ := mem_search he₀mem
        rw [hqe]
        exact sim_le_zero v q.vector
      have hge0 : (0 : Int) ≤ e₀.score := by
        rw [hsort] at hself
        rcases List.mem_cons.mp hself with heq | hmem
        · rw [← heq, hpv, sim_self]
        · have hrel := List.rel_of_sorted_cons hsorted _ hmem
          have : sim v p.vector = 0 := by rw [hpv]; exact sim_self v
          unfold searchRel at hrel
          simp only [this] at hrel
          omega
      omega

/-- Concrete instance of the search contract: a two-point index queried with a
vector equal to one of the stored vectors. -/
theorem search_contract_witness :
    ∃ e, (search
        [⟨⟨1, 0⟩, [2, 3], ⟨"t", "u", none, 1, 0⟩⟩,
         ⟨⟨2, 0⟩, [0, 1], ⟨"s", "w", none, 2, 0⟩⟩]
        [0, 1] 4 (-10)).head? = some e ∧ e.score = 0 :=
  (search_contract
      [⟨⟨1, 0⟩, [2, 3], ⟨"t", "u", none, 1, 0⟩⟩,
       ⟨⟨2, 0⟩, [0, 1], ⟨"s", "w", none, 2, 0⟩⟩]
      [0, 1] 4 (-10)).2.2.2.2
    ⟨⟨⟨2, 0⟩, [0, 1], ⟨"s", "w", none, 2, 0⟩⟩, by decide, by decide⟩
    (by decide) (by decide)

/-! ## Ingestion Orchestrator (modelled from the spec, §4.4) -/

/-- Modelled from the spec: §3 — a fetched Page. -/
structure WikiPage where
  page_id : Nat
  title : String
  url : String
  topic : Option String
  raw_text : String
deriving DecidableEq

/-- Modelled from the spec: §6 — the content source, an external collaborator
capable of topic search and page fetch by URL. -/
structure ContentSource where
  searchTopic : String → List WikiPage
  fetchUrl : String → Option WikiPage

/-- Modelled from the spec: §4.2/§4.4 — the ambient ingestion capabilities:
the content source and the (deterministic) document-mode embedder. -/
structure IngestEnv where
  source : ContentSource
  embed : String → Vec

/-- Modelled from the spec: §7 — the failures an ingestion request surfaces
up front. -/
inductive IngestError where
  | validationError
  | configError
deriving DecidableEq

/-- Modelled from the spec: §4.4 —
`ingest(request) → {processed_pages, embedded_chunks, skipped_pages, dry_run}`. -/
structure IngestResult where
  processed_pages : Nat
  embedded_chunks : Nat
  skipped_pages : Nat
  dry_run : Bool
deriving DecidableEq

/-- Modelled from the spec: §4.4 — either `{topics, max_pages_per_topic}` or
`{urls}`. -/
inductive IngestInput where
  | topics (topics : List String) (max_pages_per_topic : Nat)
  | urls (urls : List String)
deriving DecidableEq

/-- Modelled from the spec: §4.4 — an ingestion request. -/
structure IngestRequest where
  input : IngestInput
  chunk_size : Nat
  chunk_overlap : Nat
  dry_run : Bool
deriving DecidableEq

/-- Modelled from the spec: §4.4 step 1 — deduplicate the combined candidate
set by `page_id` across all topics. -/
def dedupByPageId : List WikiPage → List WikiPage
  | [] => []
  | p :: rest =>
    p :: (dedupByPageId rest).filter (fun q => decide (q.page_id ≠ p.page_id))

/-- Modelled from the spec: §4.4 step 1 — resolve candidate pages; a `none`
entry is a failed fetch. -/
def candidatePages (src : ContentSource) : IngestInput → List (Option WikiPage)
  | .topics ts mpt =>
      (dedupByPageId ((ts.map (fun t => (src.searchTopic t).take mpt)).flatten)).map some
  | .urls us => us.map src.fetchUrl

/-- The chunk texts of a page under validated parameters (§4.1 windows joined
by single spaces). -/
def chunkTexts (C O : Nat) (text : String) : List String :=
  (windowsGo C (C - O - 1) (wordsOf text)).map (fun ws => " ".intercalate ws)

/-- Modelled from the spec: §3/§4.4 step 5 — the points of one page, keyed by
`(page_id, chunk_index)` with 0-based contiguous chunk indices and the derived
payload. -/
def pagePoints (embed : String → Vec) (pg : WikiPage) (texts : List String) :
    List Point :=
  texts.enum.map (fun it =>
    { key := { page_id := pg.page_id, chunk_index := it.1 }
      vector := embed it.2
      payload := { title := pg.title, url := pg.url, topic := pg.topic,
                   page_id := pg.page_id, chunk_index := it.1 } })

/-- Modelled from the spec: §4.4 steps 2–6 — process one candidate page:
skip failed fetches and empty texts, otherwise chunk, embed and (when not a
dry run) upsert, then update the counters. -/
def processPage (embed : String → Vec) (C O : Nat) (dry : Bool)
    (st : IngestResult × Index) : Option WikiPage → IngestResult × Index
  | none => ({ st.1 with skipped_pages := st.1.skipped_pages + 1 }, st.2)
  | some pg =>
    let texts := chunkTexts C O pg.raw_text
    if texts.isEmpty then
      ({ st.1 with skipped_pages := st.1.skipped_pages + 1 }, st.2)
    else
      ({ st.1 with
          processed_pages := st.1.processed_pages + 1
          embedded_chunks := st.1.embedded_chunks + texts.length },
        if dry then st.2 else upsertAll st.2 (pagePoints embed pg texts))

/-- Modelled from the spec: §4.4 — the ingestion orchestrator: validate the
input list (§7 `ValidationError`, no side effects) and the chunk parameters
(§4.1 `ConfigError`, checked once up front), then fold over the candidate
pages. -/
def ingest (env : IngestEnv) (req : IngestRequest) (idx : Index) :
    Except IngestError IngestResult × Index :=
  let inputEmpty :=
    match req.input with
    | .topics ts _ => ts.isEmpty
    | .urls us => us.isEmpty
  if inputEmpty then (.error .validationError, idx)
  else if 0 < req.chunk_size ∧ 0 < req.chunk_overlap ∧
      req.chunk_overlap < req.chunk_size then
    let st := (candidatePages env.source req.input).foldl
      (processPage env.embed req.chunk_size req.chunk_overlap req.dry_run)
      (⟨0, 0, 0, req.dry_run⟩, idx)
    (.ok st.1, st.2)
  else (.error .configError, idx)

/-- The composite keys of a batch of points. -/
def keysOf (ps : List Point) : List PointKey :=
  ps.map (fun p => p.key)

/-- A folded batch of upserts with pairwise distinct keys has a canonical
form: the batch in reverse order, followed by the surviving old points. -/
theorem upsertAll_eq (idx : Index) (ps : List Point) (h : (keysOf ps).Nodup) :
    upsertAll idx ps =
      ps.reverse ++ idx.filter (fun q => decide (q.key ∉ keysOf ps)) := by
  induction ps generalizing idx with
  | nil =>
    simp [upsertAll, keysOf]
  | cons p rest ih =>
    have hk : p.key ∉ keysOf rest := by
      simp only [keysOf, List.map_cons, List.nodup_cons] at h
      exact h.1
    have hrest : (keysOf rest).Nodup := by
      simp only [keysOf, List.map_cons, List.nodup_cons] at h
      exact h.2
    show upsertAll (upsert idx p) rest = _
    rw [ih (upsert idx p) hrest]
    have hfilter :
        (upsert idx p).filter (fun q => decide (q.key ∉ keysOf rest)) =
          p :: idx.filter (fun q => decide (q.key ∉ keysOf (p :: rest))) := by
      unfold upsert
      have hcons : List.filter (fun q => decide (q.key ∉ keysOf rest))
          (p :: idx.filter (fun q => decide (q.key ≠ p.key))) =
          p :: List.filter (fun q => decide (q.key ∉ keysOf rest))
            (idx.filter (fun q => decide (q.key ≠ p.key))) := by
        rw [List.filter_cons, if_pos (decide_eq_true hk)]
      rw [hcons, List.filter_filter]
      congr 1
      apply List.filter_congr
      intro x _
      simp only [keysOf, List.map_cons, List.mem_cons, not_or]
      by_cases h1 : x.key = p.key <;>
        by_cases h2 : x.key ∈ List.map (fun q => q.key) rest <;>
          simp [h1, h2]
    rw [hfilter]
    simp [List.append_assoc]

/-- Re-applying the same nodup-keyed batch of upserts is the identity. -/
theorem upsertAll_idem (idx : Index) (ps : List Point) (h : (keysOf ps).Nodup) :
    upsertAll (upsertAll idx ps) ps = upsertAll idx ps := by
  rw [upsertAll_eq idx ps h, upsertAll_eq _ ps h, List.filter_append]
  have h1 : ps.reverse.filter (fun q => decide (q.key ∉ keysOf ps)) = [] := by
    rw [List.filter_eq_nil_iff]
    intro q hq
    rw [List.mem_reverse] at hq
    simp only [decide_eq_true_eq, not_not]
    exact List.mem_map.mpr ⟨q, hq, rfl⟩
  have h2 : (idx.filter (fun q => decide (q.key ∉ keysOf ps))).filter
      (fun q => decide (q.key ∉ keysOf ps)) =
        idx.filter (fun q => decide (q.key ∉ keysOf ps)) := by
    rw [List.filter_filter]
    apply List.filter_congr
    intro x _
    rw [Bool.and_self]
  rw [h1, h2, List.nil_append]

theorem keysOf_pagePoints (embed : String → Vec) (pg : WikiPage)
    (texts : List String) :
    keysOf (pagePoints embed pg texts) =
      (List.range texts.length).map
        (fun i => ⟨pg.page_id, i⟩ : Nat → PointKey) := by
  unfold keysOf pagePoints
  rw [List.map_map, ← List.enum_map_fst texts, List.map_map]
  rfl

theorem keysOf_pagePoints_nodup (embed : String → Vec) (pg : WikiPage)
    (texts : List String) : (keysOf (pagePoints embed pg texts)).Nodup := by
  rw [keysOf_pagePoints]
  refine List.Nodup.map ?_ (List.nodup_range _)
  intro i j hij
  simpa using congrArg PointKey.chunk_index hij

theorem chunkTexts_ne_empty (C O : Nat) (text : String)
    (h : wordsOf text ≠ []) : (chunkTexts C O text).isEmpty = false := by
  unfold chunkTexts
  match hw : wordsOf text with
  | [] => exact absurd hw h
  | w :: rest =>
    rw [windowsGo_cons]
    by_cases hc : rest.length + 1 ≤ C
    · rw [if_pos hc]
      rfl
    · rw [if_neg hc]
      rfl

theorem processPage_some (embed : String → Vec) (C O : Nat) (dry : Bool)
    (st : IngestResult × Index) (pg : WikiPage)
    (h : wordsOf pg.raw_text ≠ []) :
    processPage embed C O dry st (some pg) =
      ({ st.1 with
          processed_pages := st.1.processed_pages + 1
          embedded_chunks :=
            st.1.embedded_chunks + (chunkTexts C O pg.raw_text).length },
        if dry then st.2
        else upsertAll st.2 (pagePoints embed pg (chunkTexts C O pg.raw_text))) := by
  simp only [processPage]
  rw [if_neg (by rw [chunkTexts_ne_empty C O _ h]; exact Bool.false_ne_true)]

/-- Evaluation of a single-URL non-dry ingestion whose fetch succeeds with
non-empty text. -/
theorem ingest_single_url (env : IngestEnv) (url : String) (C O : Nat)
    (idx : Index) (hC : 0 < C) (hO : 0 < O) (hOC : O < C) (pg : WikiPage)
    (hfetch : env.source.fetchUrl url = some pg)
    (htext : wordsOf pg.raw_text ≠ []) :
    ingest env ⟨.urls [url], C, O, false⟩ idx =
      (.ok ⟨1, (chunkTexts C O pg.raw_text).length, 0, false⟩,
        upsertAll idx (pagePoints env.embed pg (chunkTexts C O pg.raw_text))) := by
  unfold ingest
  simp only [List.isEmpty_cons, if_false, Bool.false_eq_true, if_neg]
  rw [if_pos ⟨hC, hO, hOC⟩]
  have hcand : candidatePages env.source (.urls [url]) = [some pg] := by
    simp [candidatePages, hfetch]
  rw [hcand, List.foldl_cons, List.foldl_nil,
    processPage_some env.embed C O false _ pg htext]
  simp

/-- C2: ingesting the same URL twice with identical parameters and
`dry_run = false` leaves the vector index (hence its point count) after the
second run equal to its state after the first run — the upsert is keyed by
`(page_id, chunk_index)` and overwrites — while both runs report the page in
`processed_pages`. -/
theorem ingest_idempotent (env : IngestEnv) (url : String) (C O : Nat)
    (idx : Index) (hC : 0 < C) (hO : 0 < O) (hOC : O < C) (pg : WikiPage)
    (hfetch : env.source.fetchUrl url = some pg)
    (htext : wordsOf pg.raw_text ≠ []) :
    ∃ res₁ res₂ : IngestResult,
      (ingest env ⟨.urls [url], C, O, false⟩ idx).1 = .ok res₁ ∧
      (ingest env ⟨.urls [url], C, O, false⟩
          (ingest env ⟨.urls [url], C, O, false⟩ idx).2).1 = .ok res₂ ∧
      (ingest env ⟨.urls [url], C, O, false⟩
          (ingest env ⟨.urls [url], C, O, false⟩ idx).2).2 =
        (ingest env ⟨.urls [url], C, O, false⟩ idx).2 ∧
      (ingest env ⟨.urls [url], C, O, false⟩
          (ingest env ⟨.urls [url], C, O, false⟩ idx).2).2.length =
        (ingest env ⟨.urls [url], C, O, false⟩ idx).2.length ∧
      res₁.processed_pages = 1 ∧ res₂.processed_pages = 1 := by
  have h1 := ingest_single_url env url C O idx hC hO hOC pg hfetch htext
  have h2 := ingest_single_url env url C O
    (upsertAll idx (pagePoints env.embed pg (chunkTexts C O pg.raw_text)))
    hC hO hOC pg hfetch htext
  refine ⟨⟨1, (chunkTexts C O pg.raw_text).length, 0, false⟩,
    ⟨1, (chunkTexts C O pg.raw_text).length, 0, false⟩, ?_, ?_, ?_, ?_, rfl, rfl⟩
  · rw [h1]
  · rw [h1]
    show (ingest env ⟨.urls [url], C, O, false⟩ _).1 = _
    rw [h2]
  · rw [h1]
    show (ingest env ⟨.urls [url], C, O, false⟩ _).2 = _
    rw [h2]
    exact upsertAll_idem idx _ (keysOf_pagePoints_nodup env.embed pg _)
  · rw [h1]
    show (ingest env ⟨.urls [url], C, O, false⟩ _).2.length = _
    rw [h2]
    rw [upsertAll_idem idx _ (keysOf_pagePoints_nodup env.embed pg _)]

/-- Concrete instance of idempotent ingestion: a one-page source ingested
twice into an initially empty index. -/
theorem ingest_idempotent_witness :
    ∃ res₁ res₂ : IngestResult,
      (ingest ⟨⟨fun _ => [], fun _ => some ⟨7, "T", "u", none, "one two three"⟩⟩,
          fun _ => [1]⟩ ⟨.urls ["u"], 2, 1, false⟩ []).1 = .ok res₁ ∧
      (ingest ⟨⟨fun _ => [], fun _ => some ⟨7, "T", "u", none, "one two three"⟩⟩,
          fun _ => [1]⟩ ⟨.urls ["u"], 2, 1, false⟩
        (ingest ⟨⟨fun _ => [], fun _ => some ⟨7, "T", "u", none, "one two three"⟩⟩,
            fun _ => [1]⟩ ⟨.urls ["u"], 2, 1, false⟩ []).2).1 = .ok res₂ ∧
      (ingest ⟨⟨fun _ => [], fun _ => some ⟨7, "T", "u", none, "one two three"⟩⟩,
          fun _ => [1]⟩ ⟨.urls ["u"], 2, 1, false⟩
        (ingest ⟨⟨fun _ => [], fun _ => some ⟨7, "T", "u", none, "one two three"⟩⟩,
            fun _ => [1]⟩ ⟨.urls ["u"], 2, 1, false⟩ []).2).2 =
        (ingest ⟨⟨fun _ => [], fun _ => some ⟨7, "T", "u", none, "one two three"⟩⟩,
            fun _ => [1]⟩ ⟨.urls ["u"], 2, 1, false⟩ []).2 ∧
      (ingest ⟨⟨fun _ => [], fun _ => some ⟨7, "T", "u", none, "one two three"⟩⟩,
          fun _ => [1]⟩ ⟨.urls ["u"], 2, 1, false⟩
        (ingest ⟨⟨fun _ => [], fun _ => some ⟨7, "T", "u", none, "one two three"⟩⟩,
            fun _ => [1]⟩ ⟨.urls ["u"], 2, 1, false⟩ []).2).2.length =
        (ingest ⟨⟨fun _ => [], fun _ => some ⟨7, "T", "u", none, "one two three"⟩⟩,
            fun _ => [1]⟩ ⟨.urls ["u"], 2, 1, false⟩ []).2.length ∧
      res₁.processed_pages = 1 ∧ res₂.processed_pages = 1 :=
  ingest_idempotent
    ⟨⟨fun _ => [], fun _ => some ⟨7, "T", "u", none, "one two three"⟩⟩, fun _ => [1]⟩
    "u" 2 1 [] (by decide) (by decide) (by decide)
    ⟨7, "T", "u", none, "one two three"⟩ rfl (by decide)

theorem processPage_dry_snd (embed : String → Vec) (C O : Nat)
    (st : IngestResult × Index) (pg? : Option WikiPage) :
    (processPage embed C O true st pg?).2 = st.2 := by
  cases pg? with
  | none => rfl
  | some pg =>
    simp only [processPage]
    by_cases h : (chunkTexts C O pg.raw_text).isEmpty = true
    · rw [if_pos h]
    · rw [if_neg h]
      simp

theorem foldl_processPage_dry_snd (embed : String → Vec) (C O : Nat)
    (pages : List (Option WikiPage)) (st : IngestResult × Index) :
    (pages.foldl (processPage embed C O true) st).2 = st.2 := by
  induction pages generalizing st with
  | nil => rfl
  | cons p ps ih => rw [List.foldl_cons, ih, processPage_dry_snd]

theorem ingest_dry_run_index (env : IngestEnv) (req : IngestRequest)
    (idx : Index) (h : req.dry_run = true) : (ingest env req idx).2 = idx := by
  obtain ⟨inp, C, O, d⟩ := req
  simp only at h
  subst h
  unfold ingest
  by_cases h1 :
      (match inp with
        | .topics ts _ => ts.isEmpty
        | .urls us => us.isEmpty) = true
  · rw [if_pos h1]
  · rw [if_neg h1]
    by_cases h2 : 0 < C ∧ 0 < O ∧ O < C
    · rw [if_pos h2]
      exact foldl_processPage_dry_snd env.embed C O _ _
    · rw [if_neg h2]

/-- Ingestion outcome counters, without the echoed `dry_run` flag. -/
def countsOf (r : IngestResult) : Nat × Nat × Nat :=
  (r.processed_pages, r.embedded_chunks, r.skipped_pages)

theorem processPage_counts (embed : String → Vec) (C O : Nat) (d₁ d₂ : Bool)
    (st₁ st₂ : IngestResult × Index) (h : countsOf st₁.1 = countsOf st₂.1)
    (pg? : Option WikiPage) :
    countsOf (processPage embed C O d₁ st₁ pg?).1 =
      countsOf (processPage embed C O d₂ st₂ pg?).1 := by
  cases pg? with
  | none =>
    simp only [processPage, countsOf, Prod.mk.injEq] at h ⊢
    omega
  | some pg =>
    simp only [processPage]
    by_cases he : (chunkTexts C O pg.raw_text).isEmpty = true
    · rw [if_pos he, if_pos he]
      simp only [countsOf, Prod.mk.injEq] at h ⊢
      omega
    · rw [if_neg he, if_neg he]
      simp only [countsOf, Prod.mk.injEq] at h ⊢
      omega

theorem foldl_processPage_counts (embed : String → Vec) (C O : Nat)
    (d₁ d₂ : Bool) (pages : List (Option WikiPage)) :
    ∀ st₁ st₂ : IngestResult × Index, countsOf st₁.1 = countsOf st₂.1 →
      countsOf ((pages.foldl (processPage embed C O d₁) st₁)).1 =
        countsOf ((pages.foldl (processPage embed C O d₂) st₂)).1 := by
  induction pages with
  | nil => intro st₁ st₂ h; exact h
  | cons p ps ih =>
    intro st₁ st₂ h
    rw [List.foldl_cons, List.foldl_cons]
    exact ih _ _ (processPage_counts embed C O d₁ d₂ st₁ st₂ h p)

theorem ingest_counts_independent_of_dry (env : IngestEnv) (inp : IngestInput)
    (C O : Nat) (d : Bool) (idx idx' : Index) :
    (ingest env ⟨inp, C, O, d⟩ idx).1.map countsOf =
      (ingest env ⟨inp, C, O, false⟩ idx').1.map countsOf := by
  unfold ingest
  by_cases h1 :
      (match inp with
        | .topics ts _ => ts.isEmpty
        | .urls us => us.isEmpty) = true
  · rw [if_pos h1, if_pos h1]
  · rw [if_neg h1, if_neg h1]
    by_cases h2 : 0 < C ∧ 0 < O ∧ O < C
    · rw [if_pos h2, if_pos h2]
      show Except.ok _ = Except.ok _
      rw [foldl_processPage_counts env.embed C O d false
        (candidatePages env.source inp) (⟨0, 0, 0, d⟩, idx)
        (⟨0, 0, 0, false⟩, idx') rfl]
    · rw [if_neg h2, if_neg h2]

/-- Apply a sequence of ingestion requests to an index. -/
def ingestAll (env : IngestEnv) (reqs : List IngestRequest) (idx : Index) :
    Index :=
  reqs.foldl (fun i r => (ingest env r i).2) idx

/-- C3: a sequence of `dry_run = true` ingestion requests leaves the index —
hence `list_pages()` with its aggregate chunk counts — unchanged, while each
such request still reports the same `processed_pages`, `embedded_chunks` and
`skipped_pages` totals as the corresponding `dry_run = false` request
would. -/
theorem dry_run_purity (env : IngestEnv) (reqs : List IngestRequest)
    (idx : Index) (h : ∀ r ∈ reqs, r.dry_run = true) :
    ingestAll env reqs idx = idx ∧
    list_pages (ingestAll env reqs idx) = list_pages idx ∧
    (∀ r ∈ reqs, (ingest env r idx).1.map countsOf =
      (ingest env ⟨r.input, r.chunk_size, r.chunk_overlap, false⟩ idx).1.map
        countsOf) := by
  have hidx : ingestAll env reqs idx = idx := by
    induction reqs generalizing idx with
    | nil => rfl
    | cons r rs ih =>
      show ingestAll env rs (ingest env r idx).2 = idx
      rw [ingest_dry_run_index env r idx (h r (List.mem_cons_self r rs))]
      exact ih idx (fun q hq => h q (List.mem_cons_of_mem r hq))
  refine ⟨hidx, by rw [hidx], ?_⟩
  intro r _
  obtain ⟨inp, C, O, d⟩ := r
  exact ingest_counts_independent_of_dry env inp C O d idx idx

/-- Concrete instance of dry-run purity: one dry-run URL request on a
one-point index. -/
theorem dry_run_purity_witness :
    ingestAll ⟨⟨fun _ => [], fun _ => some ⟨7, "T", "u", none, "one two three"⟩⟩,
        fun _ => [1]⟩ [⟨.urls ["u"], 2, 1, true⟩]
      [⟨⟨9, 0⟩, [5], ⟨"t", "w", none, 9, 0⟩⟩] =
      [⟨⟨9, 0⟩, [5], ⟨"t", "w", none, 9, 0⟩⟩] ∧
    list_pages (ingestAll ⟨⟨fun _ => [], fun _ => some ⟨7, "T", "u", none, "one two three"⟩⟩,
        fun _ => [1]⟩ [⟨.urls ["u"], 2, 1, true⟩]
      [⟨⟨9, 0⟩, [5], ⟨"t", "w", none, 9, 0⟩⟩]) =
      list_pages [⟨⟨9, 0⟩, [5], ⟨"t", "w", none, 9, 0⟩⟩] ∧
    (∀ r ∈ [(⟨.urls ["u"], 2, 1, true⟩ : IngestRequest)],
      (ingest ⟨⟨fun _ => [], fun _ => some ⟨7, "T", "u", none, "one two three"⟩⟩,
          fun _ => [1]⟩ r [⟨⟨9, 0⟩, [5], ⟨"t", "w", none, 9, 0⟩⟩]).1.map countsOf =
      (ingest ⟨⟨fun _ => [], fun _ => some ⟨7, "T", "u", none, "one two three"⟩⟩,
          fun _ => [1]⟩ ⟨r.input, r.chunk_size, r.chunk_overlap, false⟩
        [⟨⟨9, 0⟩, [5], ⟨"t", "w", none, 9, 0⟩⟩]).1.map countsOf) :=
  dry_run_purity
    ⟨⟨fun _ => [], fun _ => some ⟨7, "T", "u", none, "one two three"⟩⟩, fun _ => [1]⟩
    [⟨.urls ["u"], 2, 1, true⟩] [⟨⟨9, 0⟩, [5], ⟨"t", "w", none, 9, 0⟩⟩]
    (by decide)

/-! ## Session Store Adapter (modelled from the spec, §4.6) -/

/-- Strip leading and trailing whitespace from a character list. -/
def trimChars (cs : List Char) : List Char :=
  ((cs.dropWhile Char.isWhitespace).reverse.dropWhile Char.isWhitespace).reverse

/-- Whitespace trimming as performed by `String.prototype.trim` in the client
code. -/
def trimStr (s : String) : String :=
  String.mk (trimChars s.data)

/-- Message roles (§3). -/
inductive Role where
  | user
  | assistant
deriving DecidableEq

/-- Modelled from the spec: §3 — a Citation/Source, "a point-in-time snapshot
copied from a retrieved Chunk's payload at answer time". -/
structure SourceSnapshot where
  title : Option String
  url : Option String
  chunk_index : Option Nat
  score : Option Int
  page_id : Option Nat
  topic : Option String
deriving DecidableEq

/-- Modelled from the spec: §3 — a persisted Message, immutable once
persisted. -/
structure StoredMessage where
  id : Nat
  role : Role
  content : String
  created_at : Nat
  sources : List SourceSnapshot
  latency_ms : Option Nat
deriving DecidableEq

/-- Modelled from the spec: §3 — a Session together with its owned
messages. -/
structure Session where
  session_id : Nat
  title : Option String
  created_at : Nat
  last_message_at : Nat
  messages : List StoredMessage
deriving DecidableEq

/-- Modelled from the spec: §4.6 — the session store contents, with the next
fresh session id. -/
structure SessionStore where
  sessions : List Session
  next_id : Nat
deriving DecidableEq

/-- Modelled from the spec: §7 — session-store failures. -/
inductive StoreError where
  | notFound
  | validationError
deriving DecidableEq

/-- Look up a session by id. -/
def findSession (st : SessionStore) (sid : Nat) : Option Session :=
  st.sessions.find? (fun s => decide (s.session_id = sid))

/-- Modelled from the spec: §4.6 — `get_messages(session_id)  → ordered
sequence of messages, fails NotFound if unknown`. -/
def get_messages (st : SessionStore) (sid : Nat) :
    Except StoreError (List StoredMessage) :=
  match findSession st sid with
  | some s => .ok s.messages
  | none => .error .notFound

/-- Modelled from the spec: §4.6/§3 — `create()`: a fresh session, created
lazily by the first successful chat turn. -/
def createSession (st : SessionStore) (now : Nat) : Nat × SessionStore :=
  (st.next_id,
    ⟨st.sessions ++ [⟨st.next_id, none, now, now, []⟩], st.next_id + 1⟩)

/-- Modelled from the spec: §4.6 — `append(session_id, message)`, updating
`last_message_at`. -/
def appendMessage (st : SessionStore) (sid : Nat) (m : StoredMessage) :
    SessionStore :=
  ⟨st.sessions.map (fun s =>
      if s.session_id = sid then
        { s with messages := s.messages ++ [m], last_message_at := m.created_at }
      else s),
    st.next_id⟩

/-- Modelled from the spec: §4.6 — `delete(session_id)` removes the session
and all its messages; idempotent on repeat calls. -/
def deleteSession (st : SessionStore) (sid : Nat) : SessionStore :=
  ⟨st.sessions.filter (fun s => decide (s.session_id ≠ sid)), st.next_id⟩

/-- Modelled from the spec: §4.6 — `rename(session_id, title)`, failing
`ValidationError` on an empty title and NotFound on an unknown id, with no
side effects in either case. -/
def renameSession (st : SessionStore) (sid : Nat) (title : String) :
    Except StoreError SessionStore :=
  if trimStr title = "" then .error .validationError
  else
    match findSession st sid with
    | none => .error .notFound
    | some _ =>
      .ok ⟨st.sessions.map (fun s =>
          if s.session_id = sid then { s with title := some (trimStr title) }
          else s),
        st.next_id⟩

/-! ## Web API client (`web/src/api/client.ts`) -/

/-- `ApiError` from `web/src/api/client.ts`: the HTTP status code plus the
error message the constructor received. -/
structure ApiError where
  status : Nat
  message : String
deriving DecidableEq

/-- An HTTP response as observed by the client helpers: the `ok` flag, the
status code, the body text read on failure, and the parsed JSON body (the
TypeScript code casts the parsed JSON without validation). -/
structure HttpResponse (α : Type) where
  ok : Bool
  status : Nat
  bodyText : String
  jsonBody : α

/-- `postChat` from `web/src/api/client.ts` (lines 109–129): on a non-ok
response it throws `ApiError(status, errorText || 'Failed to fetch chat
response')`; on an ok response it returns the parsed body. -/
def postChat {α : Type} (response : HttpResponse α) : Except ApiError α :=
  if response.ok then .ok response.jsonBody
  else
    .error ⟨response.status,
      if response.bodyText = "" then "Failed to fetch chat response"
      else response.bodyText⟩

/-- `getJson` from `web/src/api/client.ts` (lines 133–148). -/
def getJson {α : Type} (response : HttpResponse α) : Except ApiError α :=
  if response.ok then .ok response.jsonBody
  else
    .error ⟨response.status,
      if response.bodyText = "" then "Request failed" else response.bodyText⟩

/-- `postJson` from `web/src/api/client.ts` (lines 150–170). -/
def postJson {α : Type} (response : HttpResponse α) : Except ApiError α :=
  if response.ok then .ok response.jsonBody
  else
    .error ⟨response.status,
      if response.bodyText = "" then "Request failed" else response.bodyText⟩

/-- `deleteChatSession` from `web/src/api/client.ts` (lines 193–205): returns
no body on success. -/
def deleteChatSession (response : HttpResponse Unit) : Except ApiError Unit :=
  if response.ok then .ok ()
  else
    .error ⟨response.status,
      if response.bodyText = "" then "Failed to delete chat session"
      else response.bodyText⟩

/-- `value.split('\n')` over the character list. -/
def splitLines : List Char → List (List Char)
  | [] => [[]]
  | c :: cs =>
    if c = '\n' then [] :: splitLines cs
    else
      match splitLines cs with
      | [] => [[c]]
      | l :: ls => (c :: l) :: ls

/-- `parseMultilineInput` from `web/src/components/IngestionPanel.tsx`:
split on newlines, trim each entry, drop falsy (empty) entries. -/
def parseMultilineInput (value : String) : List String :=
  ((splitLines value.data).map (fun cs => trimStr (String.mk cs))).filter
    (fun s => decide (s ≠ ""))

/-- Outcome of an ingestion-panel submit handler: either a surfaced
validation message with no HTTP request, or the issued request body. -/
inductive IngestSubmitOutcome where
  | validationError (message : String)
  | request (entries : List String)
deriving DecidableEq

/-- `handleTopicsSubmit` from `web/src/components/IngestionPanel.tsx`
(lines 27–39): an empty parsed topic list sets an error and returns before
any HTTP request. -/
def handleTopicsSubmit (topicsInput : String) : IngestSubmitOutcome :=
  let topics := parseMultilineInput topicsInput
  if topics.isEmpty then
    .validationError "Enter at least one topic to search on Wikipedia."
  else .request topics

/-- `handleUrlsSubmit` from `web/src/components/IngestionPanel.tsx`
(lines 41–53). -/
def handleUrlsSubmit (urlsInput : String) : IngestSubmitOutcome :=
  let urls := parseMultilineInput urlsInput
  if urls.isEmpty then .validationError "Enter at least one Wikipedia URL."
  else .request urls

/-- Outcome of the sidebar rename submit handler. -/
inductive RenameSubmitOutcome where
  | noop
  | renameError (message : String)
  | request (sessionId : String) (title : String)
deriving DecidableEq

/-- `submitRename` from `web/src/components/Sidebar.tsx` (lines 479–515 of
the concatenated component sources): an empty trimmed title sets a rename
error and returns before calling `onRenameSession`. -/
def submitRename (editingSessionId : Option String) (draftTitle : String) :
    RenameSubmitOutcome :=
  match editingSessionId with
  | none => .noop
  | some sid =>
    let trimmed := trimStr draftTitle
    if trimmed = "" then .renameError "Title cannot be empty."
    else .request sid trimmed

/-- `StoredChatMessagePayload` from `web/src/api/client.ts`. -/
structure StoredChatMessagePayload where
  id : String
  role : Role
  content : String
  created_at : String
  sources : Option (List SourceSnapshot)
  latency_ms : Option Nat
deriving DecidableEq

/-- The client-side `ChatMessage` from `web/src/components/Message.tsx`. -/
structure ClientChatMessage where
  id : String
  role : Role
  content : String
  createdAt : Option String
  latencyMs : Option Nat
  sources : Option (List SourceSnapshot)
deriving DecidableEq

/-- The hydration performed by `loadHistory` in
`web/src/components/Chat.tsx`. -/
def hydrateMessage (m : StoredChatMessagePayload) : ClientChatMessage :=
  ⟨m.id, m.role, m.content, some m.created_at, m.latency_ms, m.sources⟩

/-- The component-state effect of one `loadHistory` completion. -/
structure LoadHistoryOutcome where
  messages : List ClientChatMessage
  historyError : Option String
  sessionCleared : Bool
deriving DecidableEq

/-- `loadHistory` from `web/src/components/Chat.tsx` (lines 225–269 of the
concatenated component sources): the 404 branch clears the message list and
deactivates the session via `onSessionChange(null)`. -/
def loadHistory (result : Except ApiError (List StoredChatMessagePayload)) :
    LoadHistoryOutcome :=
  match result with
  | .ok msgs => ⟨msgs.map hydrateMessage, none, false⟩
  | .error e =>
    if e.status = 404 then
      ⟨[], some "Session no longer exists. Starting a new chat.", true⟩
    else if 500 ≤ e.status then
      ⟨[], some "Unable to load chat history from the server.", false⟩
    else ⟨[], some "Unable to load chat history.", false⟩

/-- C8: after `delete(session_id)`, `get_messages` on that id fails NotFound
(the HTTP 404) rather than returning an empty message list, and the client
handles a 404 from the history load by clearing the loaded messages and
deactivating the session with an informational message instead of the
server-error message. -/
theorem delete_then_get_messages (st : SessionStore) (sid : Nat)
    (e : ApiError) (he : e.status = 404) :
    get_messages (deleteSession st sid) sid = .error .notFound ∧
    loadHistory (.error e) =
      ⟨[], some "Session no longer exists. Starting a new chat.", true⟩ ∧
    (loadHistory (.error e)).historyError ≠
      some "Unable to load chat history from the server." := by
  have hload : loadHistory (.error e) =
      ⟨[], some "Session no longer exists. Starting a new chat.", true⟩ := by
    simp only [loadHistory]
    rw [if_pos he]
  refine ⟨?_, hload, ?_⟩
  · unfold get_messages findSession deleteSession
    have hnone : (st.sessions.filter
        (fun s => decide (s.session_id ≠ sid))).find?
          (fun s => decide (s.session_id = sid)) = none := by
      rw [List.find?_eq_none]
      intro s hs
      have := List.of_mem_filter hs
      simp only [decide_eq_true_eq] at this ⊢
      exact fun h => this h
    rw [hnone]
  · rw [hload]
    simp

/-- Concrete instance: deleting a one-session store then reading it back
404s, and the client clears state. -/
theorem delete_then_get_messages_witness :
    get_messages (deleteSession ⟨[⟨3, none, 0, 0, []⟩], 4⟩ 3) 3 =
      .error .notFound ∧
    loadHistory (.error ⟨404, "not found"⟩) =
      ⟨[], some "Session no longer exists. Starting a new chat.", true⟩ ∧
    (loadHistory (.error (⟨404, "not found"⟩ : ApiError))).historyError ≠
      some "Unable to load chat history from the server." :=
  delete_then_get_messages ⟨[⟨3, none, 0, 0, []⟩], 4⟩ 3 ⟨404, "not found"⟩ rfl

/-- C9 (as stated) fails on an empty error body: `postChat` then throws an
`ApiError` whose message is the fallback string, not the response body
text. -/
theorem apiClient_body_text_counterexample :
    postChat (⟨false, 500, "", ()⟩ : HttpResponse Unit) =
      .error ⟨500, "Failed to fetch chat response"⟩ ∧
    "Failed to fetch chat response" ≠
      (⟨false, 500, "", ()⟩ : HttpResponse Unit).bodyText :=
  ⟨rfl, by decide⟩

/-- C9 (amended): each client helper throws `ApiError` exactly when the
response is not ok, carrying the status code together with the response body
text when that text is non-empty and a helper-specific fallback message when
it is empty; on an ok response each helper returns the parsed body (unit for
the delete helper) and throws nothing. -/
theorem apiClient_error_contract {α : Type} (r : HttpResponse α)
    (ru : HttpResponse Unit) :
    (r.ok = true →
      postChat r = .ok r.jsonBody ∧ getJson r = .ok r.jsonBody ∧
      postJson r = .ok r.jsonBody) ∧
    (ru.ok = true → deleteChatSession ru = .ok ()) ∧
    (r.ok = false →
      postChat r = .error ⟨r.status,
        if r.bodyText = "" then "Failed to fetch chat response"
        else r.bodyText⟩ ∧
      getJson r = .error ⟨r.status,
        if r.bodyText = "" then "Request failed" else r.bodyText⟩ ∧
      postJson r = .error ⟨r.status,
        if r.bodyText = "" then "Request failed" else r.bodyText⟩) ∧
    (ru.ok = false →
      deleteChatSession ru = .error ⟨ru.status,
        if ru.bodyText = "" then "Failed to delete chat session"
        else ru.bodyText⟩) := by
  refine ⟨?_, ?_, ?_, ?_⟩
  · intro h
    unfold postChat getJson postJson
    rw [h]
    exact ⟨rfl, rfl, rfl⟩
  · intro h
    unfold deleteChatSession
    rw [h]
    rfl
  · intro h
    unfold postChat getJson postJson
    rw [h]
    exact ⟨rfl, rfl, rfl⟩
  · intro h
    unfold deleteChatSession
    rw [h]
    rfl

/-- Concrete instance of the client error contract: an ok response and a
failed response with a body. -/
theorem apiClient_error_contract_witness :
    ((⟨true, 200, "", 5⟩ : HttpResponse Nat).ok = true →
      postChat (⟨true, 200, "", 5⟩ : HttpResponse Nat) = .ok 5 ∧
      getJson (⟨true, 200, "", 5⟩ : HttpResponse Nat) = .ok 5 ∧
      postJson (⟨true, 200, "", 5⟩ : HttpResponse Nat) = .ok 5) ∧
    ((⟨false, 422, "bad", ()⟩ : HttpResponse Unit).ok = true →
      deleteChatSession (⟨false, 422, "bad", ()⟩ : HttpResponse Unit) = .ok ()) ∧
    ((⟨true, 200, "", 5⟩ : HttpResponse Nat).ok = false →
      postChat (⟨true, 200, "", 5⟩ : HttpResponse Nat) = .error ⟨200,
        if ("" : String) = "" then "Failed to fetch chat response" else ""⟩ ∧
      getJson (⟨true, 200, "", 5⟩ : HttpResponse Nat) = .error ⟨200,
        if ("" : String) = "" then "Request failed" else ""⟩ ∧
      postJson (⟨true, 200, "", 5⟩ : HttpResponse Nat) = .error ⟨200,
        if ("" : String) = "" then "Request failed" else ""⟩) ∧
    ((⟨false, 422, "bad", ()⟩ : HttpResponse Unit).ok = false →
      deleteChatSession (⟨false, 422, "bad", ()⟩ : HttpResponse Unit) =
        .error ⟨422,
          if ("bad" : String) = "" then "Failed to delete chat session"
          else "bad"⟩) :=
  apiClient_error_contract (⟨true, 200, "", 5⟩ : HttpResponse Nat)
    (⟨false, 422, "bad", ()⟩ : HttpResponse Unit)

/-- C7: empty or malformed input — an empty topic list, an empty URL list, or
a rename title that is empty after trimming — fails with `ValidationError`
and has no side effects; the client submit handlers issue no HTTP request for
such input and surface a validation message instead. -/
theorem validation_no_side_effects :
    (∀ input : String, parseMultilineInput input = [] →
      handleTopicsSubmit input =
        .validationError "Enter at least one topic to search on Wikipedia.") ∧
    (∀ input : String, parseMultilineInput input = [] →
      handleUrlsSubmit input =
        .validationError "Enter at least one Wikipedia URL.") ∧
    (∀ sid title : String, trimStr title = "" →
      submitRename (some sid) title = .renameError "Title cannot be empty.") ∧
    (∀ (env : IngestEnv) (m C O : Nat) (d : Bool) (idx : Index),
      ingest env ⟨.topics [] m, C, O, d⟩ idx = (.error .validationError, idx)) ∧
    (∀ (env : IngestEnv) (C O : Nat) (d : Bool) (idx : Index),
      ingest env ⟨.urls [], C, O, d⟩ idx = (.error .validationError, idx)) ∧
    (∀ (st : SessionStore) (sid : Nat) (title : String), trimStr title = "" →
      renameSession st sid title = .error .validationError) := by
  refine ⟨?_, ?_, ?_, ?_, ?_, ?_⟩
  · intro input h
    unfold handleTopicsSubmit
    rw [h]
    rfl
  · intro input h
    unfold handleUrlsSubmit
    rw [h]
    rfl
  · intro sid title h
    unfold submitRename
    rw [h]
    rfl
  · intro env m C O d idx
    rfl
  · intro env C O d idx
    rfl
  · intro st sid title h
    unfold renameSession
    rw [if_pos h]

/-- Concrete instance of validation handling: whitespace-only inputs. -/
theorem validation_no_side_effects_witness :
    handleTopicsSubmit "  \n " =
      .validationError "Enter at least one topic to search on Wikipedia." ∧
    handleUrlsSubmit "" =
      .validationError "Enter at least one Wikipedia URL." ∧
    submitRename (some "s1") "   " = .renameError "Title cannot be empty." ∧
    renameSession ⟨[⟨3, none, 0, 0, []⟩], 4⟩ 3 "   " =
      .error .validationError :=
  ⟨validation_no_side_effects.1 "  \n " (by decide),
    validation_no_side_effects.2.1 "" (by decide),
    validation_no_side_effects.2.2.1 "s1" "   " (by decide),
    validation_no_side_effects.2.2.2.2.2 ⟨[⟨3, none, 0, 0, []⟩], 4⟩ 3 "   "
      (by decide)⟩

/-! ## Retrieval-Augmented Answerer (modelled from the spec, §4.5) -/

/-- Modelled from the spec: §4.5/§7 — the generation service outcome:
success, a `GenerationServiceError`, or a client-initiated cancellation
observed before completion. -/
inductive GenOutcome where
  | ok (text : String)
  | failure
  | cancelled
deriving DecidableEq

/-- Modelled from the spec: §7 — the ways a chat turn terminates without
persisting anything. -/
inductive ChatError where
  | generationServiceError
  | cancelled
deriving DecidableEq

/-- Modelled from the spec: §4.5/§6 — the answerer's external capabilities:
the query-mode embedder and the generation service. -/
structure ChatDeps where
  embedQuery : String → Vec
  generate : String → GenOutcome

/-- Modelled from the spec: §4.5 — the chat-turn response. -/
structure ChatResponse where
  session_id : Nat
  answer : String
  sources : List SourceSnapshot
  latency_ms : Nat
  created_at : Nat
deriving DecidableEq

/-- Modelled from the spec: §3 — the citation snapshot copied from a
retrieved entry's payload at answer time. -/
def toSnapshot (e : SearchEntry) : SourceSnapshot :=
  ⟨some e.payload.title, some e.payload.url, some e.key.chunk_index,
    some e.score, some e.key.page_id, e.payload.topic⟩

/-- Modelled from the spec: §4.5 step 4 — assemble the prompt from the tagged
retrieved passages, the supplied history turns in order, and the new
message. -/
def assemblePrompt (entries : List SearchEntry)
    (history : List (Role × String)) (message : String) : String :=
  String.intercalate "\n"
    ((entries.map (fun e => "[" ++ e.payload.title ++ "]")) ++
      (history.map (fun h => h.2)) ++ [message])

/-- Modelled from the spec: §4.5 — one chat turn: embed the query, search,
assemble the prompt, invoke generation; on success create the session lazily
when absent and append the user/assistant pair; on failure or cancellation
leave the store untouched. -/
def answer (deps : ChatDeps) (idx : Index) (store : SessionStore)
    (sessionId : Option Nat) (message : String)
    (history : List (Role × String)) (top_k : Nat) (score_threshold : Int)
    (now : Nat) : Except ChatError ChatResponse × SessionStore :=
  let results := search idx (deps.embedQuery message) top_k score_threshold
  let sources := results.map toSnapshot
  let prompt := assemblePrompt results history message
  match deps.generate prompt with
  | .failure => (.error .generationServiceError, store)
  | .cancelled => (.error .cancelled, store)
  | .ok text =>
    let sidStore :=
      match sessionId with
      | some sid => (sid, store)
      | none => createSession store now
    let store₂ := appendMessage sidStore.2 sidStore.1
      ⟨0, .user, message, now, [], none⟩
    let store₃ := appendMessage store₂ sidStore.1
      ⟨1, .assistant, text, now, sources, some 0⟩
    (.ok ⟨sidStore.1, text, sources, 0, now⟩, store₃)

/-- C4: if the generation call of a chat turn fails
(`GenerationServiceError`) or the caller cancels the turn before completion,
no session is created and no messages are appended — the session store after
the turn equals the store before it — and the turn reports an error rather
than success. -/
theorem failed_turn_persists_nothing (deps : ChatDeps) (idx : Index)
    (store : SessionStore) (sessionId : Option Nat) (message : String)
    (history : List (Role × String)) (top_k : Nat) (thr : Int) (now : Nat)
    (h : deps.generate (assemblePrompt
          (search idx (deps.embedQuery message) top_k thr) history message) =
            .failure ∨
        deps.generate (assemblePrompt
          (search idx (deps.embedQuery message) top_k thr) history message) =
            .cancelled) :
    (answer deps idx store sessionId message history top_k thr now).2 =
      store ∧
    ∃ err, (answer deps idx store sessionId message history top_k thr now).1 =
      .error err := by
  rcases h with h | h
  · refine ⟨?_, .generationServiceError, ?_⟩ <;> simp only [answer, h]
  · refine ⟨?_, .cancelled, ?_⟩ <;> simp only [answer, h]

/-- Concrete instance of the failed-turn guarantee: a generation service that
always fails, a fresh store. -/
theorem failed_turn_persists_nothing_witness :
    (answer ⟨fun _ => [], fun _ => .failure⟩ [] ⟨[], 0⟩ none "hi" [] 4 (-1)
        0).2 = ⟨[], 0⟩ ∧
    ∃ err, (answer ⟨fun _ => [], fun _ => .failure⟩ [] ⟨[], 0⟩ none "hi" [] 4
        (-1) 0).1 = .error err :=
  failed_turn_persists_nothing ⟨fun _ => [], fun _ => .failure⟩ [] ⟨[], 0⟩
    none "hi" [] 4 (-1) 0 (Or.inl rfl)

/-! ## Reference Registry (modelled from the spec, §4.7) -/

/-- The application state the registry operates on: the vector index plus the
session store (which the registry never touches). -/
structure AppState where
  index : Index
  store : SessionStore
deriving DecidableEq

/-- Modelled from the spec: §4.7 — `list()` via `list_pages()` on the index
adapter. -/
def referenceList (st : AppState) : List PageSummary :=
  list_pages st.index

/-- Modelled from the spec: §4.7 — `delete(page_id)` calls `delete_by_page`
then returns success; it has no effect on previously persisted messages. -/
def referenceDelete (st : AppState) (pid : Nat) : AppState :=
  { st with index := delete_by_page st.index pid }

/-- C6: after `delete(page_id)` on the Reference Registry, `list()` excludes
that page, every subsequent search returns no chunk bearing that `page_id`
(in its key, and in its payload for a well-formed index whose payloads agree
with their keys), and the session store — including every persisted message's
citation snapshots — is unchanged. -/
theorem reference_delete_cascade (st : AppState) (pid : Nat)
    (hwf : ∀ p ∈ st.index, p.payload.page_id = p.key.page_id) :
    (∀ s ∈ referenceList (referenceDelete st pid), s.page_id ≠ pid) ∧
    (∀ (v : Vec) (k : Nat) (thr : Int) (e : SearchEntry),
      e ∈ search (referenceDelete st pid).index v k thr →
        e.key.page_id ≠ pid ∧ e.payload.page_id ≠ pid) ∧
    (referenceDelete st pid).store = st.store := by
  refine ⟨?_, ?_, rfl⟩
  · intro s hs
    unfold referenceList list_pages at hs
    rw [List.mem_map] at hs
    obtain ⟨pid', hpid', hs⟩ := hs
    have hmem : pid' ∈ pageIds (referenceDelete st pid).index := hpid'
    unfold pageIds at hmem
    rw [List.mem_dedup, List.mem_map] at hmem
    obtain ⟨p, hp, hpk⟩ := hmem
    have hne : p.key.page_id ≠ pid := by
      have := List.of_mem_filter hp
      simpa using this
    have : s.page_id = pid' := by rw [← hs]
    rw [this, ← hpk]
    exact hne
  · intro v k thr e he
    obtain ⟨p, hp, hpe, _⟩ := mem_search he
    have hne : p.key.page_id ≠ pid := by
      have := List.of_mem_filter hp
      simpa using this
    have hidx : p ∈ st.index := List.mem_of_mem_filter hp
    constructor
    · rw [hpe]
      exact hne
    · rw [hpe]
      show p.payload.page_id ≠ pid
      rw [hwf p hidx]
      exact hne

/-- Concrete instance of the cascading delete: a two-page index, deleting
page 9. -/
theorem reference_delete_cascade_witness :
    (∀ s ∈ referenceList (referenceDelete
        ⟨[⟨⟨9, 0⟩, [5], ⟨"t", "w", none, 9, 0⟩⟩,
          ⟨⟨2, 0⟩, [1], ⟨"s", "x", none, 2, 0⟩⟩], ⟨[], 0⟩⟩ 9),
      s.page_id ≠ 9) ∧
    (∀ (v : Vec) (k : Nat) (thr : Int) (e : SearchEntry),
      e ∈ search (referenceDelete
        ⟨[⟨⟨9, 0⟩, [5], ⟨"t", "w", none, 9, 0⟩⟩,
          ⟨⟨2, 0⟩, [1], ⟨"s", "x", none, 2, 0⟩⟩], ⟨[], 0⟩⟩ 9).index v k thr →
        e.key.page_id ≠ 9 ∧ e.payload.page_id ≠ 9) ∧
    (referenceDelete
        ⟨[⟨⟨9, 0⟩, [5], ⟨"t", "w", none, 9, 0⟩⟩,
          ⟨⟨2, 0⟩, [1], ⟨"s", "x", none, 2, 0⟩⟩], ⟨[], 0⟩⟩ 9).store =
      (⟨[⟨⟨9, 0⟩, [5], ⟨"t", "w", none, 9, 0⟩⟩,
          ⟨⟨2, 0⟩, [1], ⟨"s", "x", none, 2, 0⟩⟩], ⟨[], 0⟩⟩ : AppState).store :=
  reference_delete_cascade
    ⟨[⟨⟨9, 0⟩, [5], ⟨"t", "w", none, 9, 0⟩⟩,
      ⟨⟨2, 0⟩, [1], ⟨"s", "x", none, 2, 0⟩⟩], ⟨[], 0⟩⟩ 9 (by decide)

/-! ## Chat component submit/stop state machine
(`web/src/components/Chat.tsx`) -/

/-- A chat message as held in the component's `messages` state (ids and
citation details are irrelevant to the in-flight analysis). -/
structure PanelMessage where
  role : Role
  content : String
deriving DecidableEq

/-- One chat HTTP request issued by `handleSubmit`, with its
`AbortController` state and whether its promise has settled. -/
structure ChatRequest where
  id : Nat
  message : String
  aborted : Bool
  resolved : Bool
deriving DecidableEq

/-- The component state of `Chat.tsx`: `messages`, `input`, `isLoading`,
`error`, `abortControllerRef` (the id of the tracked controller), plus the
bookkeeping of issued requests. -/
structure ChatState where
  messages : List PanelMessage
  input : String
  isLoading : Bool
  error : Option String
  abortRef : Option Nat
  nextReq : Nat
  requests : List ChatRequest
deriving DecidableEq

/-- The initial component state. -/
def chatInit : ChatState := ⟨[], "", false, none, none, 0, []⟩

/-- The events driving the component: user edits and submits, the Stop
button, and the asynchronous settlement of an issued request (success, HTTP
error, or the `AbortError` of an aborted fetch). -/
inductive ChatEvent where
  | setInput (value : String)
  | submit
  | stop
  | resolveOk (id : Nat) (answerText : String)
  | resolveError (id : Nat) (status : Nat)
  | resolveAborted (id : Nat)
deriving DecidableEq

/-- `abortControllerRef.current?.abort()`: mark the tracked request
aborted. -/
def markAborted (reqs : List ChatRequest) (id : Nat) : List ChatRequest :=
  reqs.map (fun r => if r.id = id then { r with aborted := true } else r)

/-- Settlement of a request's promise. -/
def markResolved (reqs : List ChatRequest) (id : Nat) : List ChatRequest :=
  reqs.map (fun r => if r.id = id then { r with resolved := true } else r)

/-- Request `id` is unsettled and its abort flag equals `ab`. -/
def pendingWith (s : ChatState) (id : Nat) (ab : Bool) : Prop :=
  ∃ r ∈ s.requests, r.id = id ∧ r.resolved = false ∧ r.aborted = ab

instance : ∀ s id ab, Decidable (pendingWith s id ab) := fun s id ab => by
  unfold pendingWith
  infer_instance

/-- One step of the component, from `handleSubmit` (Chat.tsx lines 286–349),
`handleStop` (lines 351–357) and the `textarea` `disabled={isLoading}` guard;
a settlement event fires only for a request that is actually unsettled, and an
aborted fetch settles only with `AbortError`.  The `finally` block of
`handleSubmit` unconditionally clears `abortControllerRef` and
`isLoading`. -/
def chatStep (s : ChatState) : ChatEvent → ChatState
  | .setInput v => if s.isLoading = true then s else { s with input := v }
  | .submit =>
    if trimStr s.input = "" ∨ s.isLoading = true then s
    else
      { messages := s.messages ++ [⟨.user, trimStr s.input⟩]
        input := ""
        isLoading := true
        error := none
        abortRef := some s.nextReq
        nextReq := s.nextReq + 1
        requests :=
          (match s.abortRef with
            | some c => markAborted s.requests c
            | none => s.requests) ++
            [⟨s.nextReq, trimStr s.input, false, false⟩] }
  | .stop =>
    match s.abortRef with
    | some c =>
      { s with
          requests := markAborted s.requests c
          abortRef := none
          isLoading := false }
    | none => s
  | .resolveOk id text =>
    if pendingWith s id false then
      { s with
          requests := markResolved s.requests id
          messages := s.messages ++ [⟨.assistant, text⟩]
          abortRef := none
          isLoading := false }
    else s
  | .resolveError id status =>
    if pendingWith s id false then
      { s with
          requests := markResolved s.requests id
          error := some (if 500 ≤ status then
              "Server error. Please check that the backend is running."
            else
              "Unable to send message. Please verify your request and try again.")
          abortRef := none
          isLoading := false }
    else s
  | .resolveAborted id =>
    if pendingWith s id true then
      { s with
          requests := markResolved s.requests id
          abortRef := none
          isLoading := false }
    else s

/-- Run the component over an event sequence. -/
def runChat (s : ChatState) (evs : List ChatEvent) : ChatState :=
  evs.foldl chatStep s

/-- The number of chat requests currently in flight: issued, unsettled and
not aborted. -/
def inFlight (s : ChatState) : Nat :=
  (s.requests.filter (fun r => !r.resolved && !r.aborted)).length

/-- C10 as stated fails: after Stop, the aborted request's settlement runs
`handleSubmit`'s `finally` block, clearing `isLoading` and the shared
`abortControllerRef` while a newer request is still in flight; a further
submit then leaves two chat requests in flight at once. -/
theorem chat_two_requests_in_flight :
    inFlight (runChat chatInit
      [.setInput "a", .submit, .stop, .setInput "b", .submit,
        .resolveAborted 0, .setInput "c", .submit]) = 2 ∧
    ¬ (∀ evs : List ChatEvent, inFlight (runChat chatInit evs) ≤ 1) :=
  ⟨by decide, fun h => absurd
    (h [.setInput "a", .submit, .stop, .setInput "b", .submit,
      .resolveAborted 0, .setInput "c", .submit]) (by decide)⟩

theorem markResolved_map_id (reqs : List ChatRequest) (id : Nat) :
    (markResolved reqs id).map (fun r => r.id) = reqs.map (fun r => r.id) := by
  unfold markResolved
  rw [List.map_map]
  apply List.map_congr_left
  intro r _
  show (if r.id = id then { r with resolved := true } else r).id = r.id
  split <;> rfl

/-- The invariant maintained by every stop-free run: no request is ever
aborted, issued ids are fresh and distinct, while loading only the tracked
request is unsettled, and when idle everything is settled. -/
def NoStopInv (s : ChatState) : Prop :=
  (∀ r ∈ s.requests, r.aborted = false) ∧
  (∀ r ∈ s.requests, r.id < s.nextReq) ∧
  (s.requests.map (fun r => r.id)).Nodup ∧
  (s.isLoading = true →
    ∃ k, s.abortRef = some k ∧
      ∀ r ∈ s.requests, r.resolved = false → r.id = k) ∧
  (s.isLoading = false →
    s.abortRef = none ∧ ∀ r ∈ s.requests, r.resolved = true)

theorem noStopInv_init : NoStopInv chatInit := by
  refine ⟨?_, ?_, ?_, ?_, ?_⟩ <;> simp [chatInit]

theorem noStopInv_settle (s : ChatState) (hs : NoStopInv s) (id : Nat)
    (hp : pendingWith s id false) (msgs : List PanelMessage)
    (err : Option String) :
    NoStopInv ⟨msgs, s.input, false, err, none, s.nextReq,
      markResolved s.requests id⟩ := by
  obtain ⟨h1, h2, h3, h4, h5⟩ := hs
  obtain ⟨r₀, hr₀, hid₀, hres₀, hab₀⟩ := hp
  have hload : s.isLoading = true := by
    cases hl : s.isLoading with
    | true => rfl
    | false =>
      rw [(h5 hl).2 r₀ hr₀] at hres₀
      exact absurd hres₀ (by simp)
  obtain ⟨k, _, hk⟩ := h4 hload
  have hkid : id = k := by
    rw [← hid₀]
    exact hk r₀ hr₀ hres₀
  refine ⟨?_, ?_, ?_, ?_, ?_⟩
  · intro r hr
    obtain ⟨r₁, hr₁, heq⟩ := List.mem_map.mp hr
    rw [← heq]
    split <;> exact h1 r₁ hr₁
  · intro r hr
    obtain ⟨r₁, hr₁, heq⟩ := List.mem_map.mp hr
    rw [← heq]
    have hsame : (if r₁.id = id then { r₁ with resolved := true } else r₁).id =
        r₁.id := by split <;> rfl
    rw [hsame]
    exact h2 r₁ hr₁
  · show ((markResolved s.requests id).map (fun r => r.id)).Nodup
    rw [markResolved_map_id]
    exact h3
  · intro hfalse
    exact absurd hfalse (by simp)
  · intro _
    refine ⟨rfl, ?_⟩
    intro r hr
    obtain ⟨r₁, hr₁, heq⟩ := List.mem_map.mp hr
    rw [← heq]
    by_cases hid : r₁.id = id
    · rw [if_pos hid]
    · rw [if_neg hid]
      cases hres : r₁.resolved with
      | true => rfl
      | false =>
        exact absurd (by rw [hk r₁ hr₁ hres, ← hkid] : r₁.id = id) hid

theorem noStopInv_step (s : ChatState) (e : ChatEvent) (hs : NoStopInv s)
    (he : e ≠ .stop) : NoStopInv (chatStep s e) := by
  obtain ⟨h1, h2, h3, h4, h5⟩ := hs
  cases e with
  | setInput v =>
    show NoStopInv (if s.isLoading = true then s else { s with input := v })
    by_cases hl : s.isLoading = true
    · rw [if_pos hl]
      exact ⟨h1, h2, h3, h4, h5⟩
    · rw [if_neg hl]
      exact ⟨h1, h2, h3, h4, h5⟩
  | submit =>
    show NoStopInv (if trimStr s.input = "" ∨ s.isLoading = true then s else _)
    by_cases hc : trimStr s.input = "" ∨ s.isLoading = true
    · rw [if_pos hc]
      exact ⟨h1, h2, h3, h4, h5⟩
    · rw [if_neg hc]
      push_neg at hc
      have hload : s.isLoading = false := by
        cases hl : s.isLoading with
        | true => exact absurd hl hc.2
        | false => rfl
      obtain ⟨href, hresolved⟩ := h5 hload
      have hreqs : (match s.abortRef with
          | some c => markAborted s.requests c
          | none => s.requests) = s.requests := by rw [href]
      refine ⟨?_, ?_, ?_, ?_, ?_⟩
      · intro r hr
        rw [hreqs] at hr
        rcases List.mem_append.mp hr with hr | hr
        · exact h1 r hr
        · rw [List.mem_singleton.mp hr]
      · intro r hr
        rw [hreqs] at hr
        rcases List.mem_append.mp hr with hr | hr
        · exact Nat.lt_trans (h2 r hr) (Nat.lt_succ_self _)
        · rw [List.mem_singleton.mp hr]
          exact Nat.lt_succ_self _
      · rw [hreqs, List.map_append, List.nodup_append]
        refine ⟨h3, List.nodup_singleton _, ?_⟩
        intro a ha hb
        simp only [List.map_cons, List.map_nil, List.mem_singleton] at hb
        obtain ⟨r, hr, hid⟩ := List.mem_map.mp ha
        exact absurd (h2 r hr) (by
          rw [hid, hb]
          exact Nat.lt_irrefl _)
      · intro _
        refine ⟨s.nextReq, rfl, ?_⟩
        intro r hr hres
        rw [hreqs] at hr
        rcases List.mem_append.mp hr with hr | hr
        · rw [hresolved r hr] at hres
          exact absurd hres (by simp)
        · rw [List.mem_singleton.mp hr]
      · intro hfalse
        exact absurd hfalse (by simp)
  | stop => exact absurd rfl he
  | resolveOk id text =>
    show NoStopInv (if pendingWith s id false then _ else s)
    by_cases hp : pendingWith s id false
    · rw [if_pos hp]
      exact noStopInv_settle s ⟨h1, h2, h3, h4, h5⟩ id hp
        (s.messages ++ [⟨.assistant, text⟩]) s.error
    · rw [if_neg hp]
      exact ⟨h1, h2, h3, h4, h5⟩
  | resolveError id status =>
    show NoStopInv (if pendingWith s id false then _ else s)
    by_cases hp : pendingWith s id false
    · rw [if_pos hp]
      exact noStopInv_settle s ⟨h1, h2, h3, h4, h5⟩ id hp s.messages
        (some (if 500 ≤ status then
            "Server error. Please check that the backend is running."
          else
            "Unable to send message. Please verify your request and try again."))
    · rw [if_neg hp]
      exact ⟨h1, h2, h3, h4, h5⟩
  | resolveAborted id =>
    show NoStopInv (if pendingWith s id true then _ else s)
    have hp : ¬ pendingWith s id true := by
      rintro ⟨r, hr, _, _, hab⟩
      rw [h1 r hr] at hab
      exact absurd hab (by simp)
    rw [if_neg hp]
    exact ⟨h1, h2, h3, h4, h5⟩

theorem noStopInv_run (evs : List ChatEvent) :
    ∀ s, NoStopInv s → (∀ e ∈ evs, e ≠ .stop) →
      NoStopInv (runChat s evs) := by
  induction evs with
  | nil => intro s hs _; exact hs
  | cons e es ih =>
    intro s hs h
    show NoStopInv (runChat (chatStep s e) es)
    exact ih _ (noStopInv_step s e hs (h e (List.mem_cons_self e es)))
      (fun e' he' => h e' (List.mem_cons_of_mem e he'))

theorem length_le_one_of_const_id (k : Nat) {l : List ChatRequest}
    (hn : (l.map (fun r => r.id)).Nodup) (hk : ∀ r ∈ l, r.id = k) :
    l.length ≤ 1 := by
  match l with
  | [] => simp
  | [r] => simp
  | r₁ :: r₂ :: t =>
    exfalso
    have e1 : r₁.id = k := hk r₁ (List.mem_cons_self _ _)
    have e2 : r₂.id = k :=
      hk r₂ (List.mem_cons_of_mem _ (List.mem_cons_self _ _))
    rw [List.map_cons, List.nodup_cons] at hn
    exact hn.1 (by
      rw [List.map_cons]
      exact List.mem_cons.mpr (Or.inl (e1.trans e2.symm)))

theorem inFlight_le_one_of_inv (s : ChatState) (hs : NoStopInv s) :
    inFlight s ≤ 1 := by
  obtain ⟨h1, h2, h3, h4, h5⟩ := hs
  unfold inFlight
  cases hl : s.isLoading with
  | false =>
    have hnil : s.requests.filter (fun r => !r.resolved && !r.aborted) = [] := by
      rw [List.filter_eq_nil_iff]
      intro r hr
      rw [(h5 hl).2 r hr]
      simp
    rw [hnil]
    simp
  | true =>
    obtain ⟨k, _, hk⟩ := h4 hl
    apply length_le_one_of_const_id k
    · exact List.Nodup.sublist
        (List.Sublist.map (fun r : ChatRequest => r.id)
          (List.filter_sublist s.requests)) h3
    · intro r hr
      have hpred := List.of_mem_filter hr
      have hmem := List.mem_of_mem_filter hr
      simp only [Bool.and_eq_true, Bool.not_eq_true'] at hpred
      exact hk r hmem hpred.1

/-- C10 (amended): submitting a new message first aborts the request tracked
by `abortControllerRef` before creating a new controller, the Stop action
aborts the tracked request and clears the loading flag, and an aborted
request's settlement appends no assistant message and sets no error state;
in any event sequence that never uses Stop the component has at most one chat
request in flight at every point.  (After a Stop, the aborted request's
`finally` block can clear `isLoading` and the controller ref while a newer
request is still in flight, so a further submit can produce two concurrent
requests — the unrestricted claim fails on that interleaving.) -/
theorem chat_single_flight :
    (∀ (s : ChatState) (c : Nat), s.abortRef = some c →
      trimStr s.input ≠ "" → s.isLoading = false → c ≠ s.nextReq →
      (∀ r ∈ (chatStep s .submit).requests, r.id = c → r.aborted = true) ∧
      (chatStep s .submit).abortRef = some s.nextReq) ∧
    (∀ (s : ChatState) (c : Nat), s.abortRef = some c →
      (∀ r ∈ (chatStep s .stop).requests, r.id = c → r.aborted = true) ∧
      (chatStep s .stop).abortRef = none ∧
      (chatStep s .stop).isLoading = false) ∧
    (∀ (s : ChatState) (id : Nat),
      (chatStep s (.resolveAborted id)).messages = s.messages ∧
      (chatStep s (.resolveAborted id)).error = s.error) ∧
    (∀ evs : List ChatEvent, (∀ e ∈ evs, e ≠ .stop) →
      inFlight (runChat chatInit evs) ≤ 1) := by
  refine ⟨?_, ?_, ?_, ?_⟩
  · intro s c habort htrim hload hc
    have hcond : ¬ (trimStr s.input = "" ∨ s.isLoading = true) := by
      rw [hload]
      simp [htrim]
    simp only [chatStep, if_neg hcond, habort]
    constructor
    · intro r hr hid
      rcases List.mem_append.mp hr with hr | hr
      · obtain ⟨r₁, hr₁, heq⟩ := List.mem_map.mp hr
        by_cases h₁ : r₁.id = c
        · rw [← heq, if_pos h₁]
        · rw [← heq, if_neg h₁] at hid
          exact absurd hid h₁
      · rw [List.mem_singleton.mp hr] at hid
        exact absurd hid.symm hc
    · trivial
  · intro s c habort
    simp only [chatStep, habort]
    refine ⟨?_, trivial, trivial⟩
    intro r hr hid
    obtain ⟨r₁, hr₁, heq⟩ := List.mem_map.mp hr
    by_cases h₁ : r₁.id = c
    · rw [← heq, if_pos h₁]
    · rw [← heq, if_neg h₁] at hid
      exact absurd hid h₁
  · intro s id
    show ((if pendingWith s id true then _ else s).messages = s.messages ∧
      (if pendingWith s id true then _ else s).error = s.error)
    by_cases hp : pendingWith s id true
    · rw [if_pos hp]
      exact ⟨rfl, rfl⟩
    · rw [if_neg hp]
      exact ⟨rfl, rfl⟩
  · intro evs h
    exact inFlight_le_one_of_inv _ (noStopInv_run evs chatInit noStopInv_init h)

/-- Concrete instance of the amended single-flight property. -/
theorem chat_single_flight_witness :
    ((∀ r ∈ (chatStep ⟨[], "x", false, none, some 0, 1,
        [⟨0, "x", false, false⟩]⟩ .submit).requests, r.id = 0 →
        r.aborted = true) ∧
      (chatStep ⟨[], "x", false, none, some 0, 1,
        [⟨0, "x", false, false⟩]⟩ .submit).abortRef = some 1) ∧
    ((∀ r ∈ (chatStep ⟨[], "", true, none, some 0, 1,
        [⟨0, "x", false, false⟩]⟩ .stop).requests, r.id = 0 →
        r.aborted = true) ∧
      (chatStep ⟨[], "", true, none, some 0, 1,
        [⟨0, "x", false, false⟩]⟩ .stop).abortRef = none ∧
      (chatStep ⟨[], "", true, none, some 0, 1,
        [⟨0, "x", false, false⟩]⟩ .stop).isLoading = false) ∧
    ((chatStep ⟨[], "", true, none, some 0, 1,
        [⟨0, "x", true, false⟩]⟩ (.resolveAborted 0)).messages = [] ∧
      (chatStep ⟨[], "", true, none, some 0, 1,
        [⟨0, "x", true, false⟩]⟩ (.resolveAborted 0)).error = none) ∧
    inFlight (runChat chatInit
      [.setInput "a", .submit, .resolveOk 0 "ans", .setInput "b",
        .submit]) ≤ 1 :=
  ⟨chat_single_flight.1 ⟨[], "x", false, none, some 0, 1,
      [⟨0, "x", false, false⟩]⟩ 0 rfl (by decide) rfl (by decide),
    chat_single_flight.2.1 ⟨[], "", true, none, some 0, 1,
      [⟨0, "x", false, false⟩]⟩ 0 rfl,
    chat_single_flight.2.2.1 ⟨[], "", true, none, some 0, 1,
      [⟨0, "x", true, false⟩]⟩ 0,
    chat_single_flight.2.2.2
      [.setInput "a", .submit, .resolveOk 0 "ans", .setInput "b", .submit]
      (by decide)⟩

end RagSpec
